import Mathlib

/-!
Verification development for the `intern` / `ndio` client library.

The Python sources under study are shallowly embedded as Lean definitions:
* pure request building and argument validation become Lean functions;
* side effects (HTTP, filesystem, zipping) are threaded through explicit
  environment records and effect traces (lists of attempted calls);
* Python exceptions become an explicit `PyErr` value in `Except`/result types.

Python name-resolution slips that the source actually contains (for example
`_run_build_graph` writing the unbound name `file_file`, or
`compute_invariants` testing membership in the undefined `GraphFormats`)
are modelled literally, as definitions that evaluate to a `NameError`,
because those slips decide several of the properties below.  Class-level
constant tables (`Invariants.ALL`, `InputFormats._any`) and the
`email=self.email` defaults are modelled by their evident values.
-/

/-- Python exception values raised by the embedded code. -/
inductive PyErr
  | valueError (msg : String)
  | nameError (name : String)
  | runtimeError (msg : String)
  | ioError (msg : String)
  | keyError (key : String)
  | attributeError (msg : String)
  | parsingError
  | missingSectionHeaderError
  | remoteDataUploadError (msg : String)
  | notImplementedError
deriving DecidableEq, Repr

namespace Intern

/-- A Boss data-model resource as seen by the dispatch layer: only its
identity and the result of its `valid_volume()` method matter here. -/
structure Resource where
  name : String
  valid_volume : Bool
deriving DecidableEq, Repr

/-- A resource handed to `ProjectService` methods (opaque payload). -/
structure BossResource where
  raw : String
deriving DecidableEq, Repr

/-- One invocation of a version-specific project-service implementation,
with exactly the arguments `ProjectService` forwards in
`src/intern/service/boss/project.py` (the caller-supplied arguments
followed by `self.url_prefix`, `self.auth`, `self.session`,
`self.session_send_opts`; the last four are modelled as strings and the
`url_prefix` attribute is called `url_root` here). -/
inductive ImplCall
  | get_group (name : String) (user_name : Option String) (url_root auth session session_send_opts : String)
  | create_group (name : String) (url_root auth session session_send_opts : String)
  | delete_group (name : String) (user_name : Option String) (url_root auth session session_send_opts : String)
  | add_user_to_group (name user : String) (url_root auth session session_send_opts : String)
  | get_permissions (grp_name : String) (resource : BossResource) (url_root auth session session_send_opts : String)
  | add_permissions (grp_name : String) (resource : BossResource) (permissions : List String) (url_root auth session session_send_opts : String)
  | delete_permissions (grp_name : String) (resource : BossResource) (permissions : List String) (url_root auth session session_send_opts : String)
  | add_user_role (user role : String) (url_root auth session session_send_opts : String)
  | delete_user_role (user role : String) (url_root auth session session_send_opts : String)
  | get_user_roles (user : String) (url_root auth session session_send_opts : String)
  | add_user (user : String) (first_name last_name email password : Option String) (url_root auth session session_send_opts : String)
  | get_user (user : String) (url_root auth session session_send_opts : String)
  | get_user_groups (user : String) (url_root auth session session_send_opts : String)
  | delete_user (user : String) (url_root auth session session_send_opts : String)
  | list (resource : Option BossResource) (url_root auth session session_send_opts : String)
  | create (resource : BossResource) (url_root auth session session_send_opts : String)
  | get (resource : BossResource) (url_root auth session session_send_opts : String)
  | update (resource_name : String) (resource : BossResource) (url_root auth session session_send_opts : String)
  | delete (resource : BossResource) (url_root auth session session_send_opts : String)
deriving DecidableEq, Repr

/-- State of a `ProjectService` object: the base url stored by the
constructor, the selected version-specific implementation (a fresh
`ProjectService_0_7()` whose own source is not part of this tree, so it is
kept abstract as a response function over calls), and the plumbing
attributes inherited from `BossService` (`url_prefix` is called
`url_root`). -/
structure ProjectService where
  base_url : String
  service : ImplCall → String
  url_root : String
  auth : String
  session : String
  session_send_opts : String

/-- Modelled from the spec: `BossService.get_api_impl` (class `BossService`
lives in `intern/service/boss/__init__.py`, which is not under `src/`).
The spec says `ProjectService` "routes calls to the appropriate API
version" and its constructor docstring promises `KeyError` on an invalid
version, which is the behaviour of the dict lookup `self._versions[version]`. -/
def get_api_impl (versions : List (String × (ImplCall → String))) (version : String) :
    Except PyErr (ImplCall → String) :=
  match versions.lookup version with
  | some impl => .ok impl
  | none => .error (.keyError version)

/-- `ProjectService.__init__`: stores the base url, builds the
`_versions` table `{v0.7: ProjectService_0_7()}` (the fresh instance is the
parameter `impl07`) and selects `self.service` via `get_api_impl`.  The
`BossService.__init__` plumbing attributes are passed in as parameters. -/
def ProjectService.init (impl07 : ImplCall → String)
    (url_root auth session session_send_opts : String)
    (base_url version : String) : Except PyErr ProjectService :=
  match get_api_impl [("v0.7", impl07)] version with
  | .ok svc => .ok ⟨base_url, svc, url_root, auth, session, session_send_opts⟩
  | .error e => .error e

/-- `ProjectService.get_group`: delegates to the selected implementation,
returning its value.  The second component is the trace of implementation
calls made. -/
def ProjectService.get_group (ps : ProjectService) (name : String) (user_name : Option String) :
    Option String × List ImplCall :=
  let c := ImplCall.get_group name user_name ps.url_root ps.auth ps.session ps.session_send_opts
  (some (ps.service c), [c])

/-- `ProjectService.create_group`: delegates; the Python method has no
`return`, so the call returns `None`. -/
def ProjectService.create_group (ps : ProjectService) (name : String) :
    Option String × List ImplCall :=
  let c := ImplCall.create_group name ps.url_root ps.auth ps.session ps.session_send_opts
  (none, [c])

/-- `ProjectService.delete_group`: delegates; no `return`. -/
def ProjectService.delete_group (ps : ProjectService) (name : String) (user_name : Option String) :
    Option String × List ImplCall :=
  let c := ImplCall.delete_group name user_name ps.url_root ps.auth ps.session ps.session_send_opts
  (none, [c])

/-- `ProjectService.add_user_to_group`: delegates and returns the value. -/
def ProjectService.add_user_to_group (ps : ProjectService) (name user : String) :
    Option String × List ImplCall :=
  let c := ImplCall.add_user_to_group name user ps.url_root ps.auth ps.session ps.session_send_opts
  (some (ps.service c), [c])

/-- `ProjectService.get_permissions`: delegates and returns the value. -/
def ProjectService.get_permissions (ps : ProjectService) (grp_name : String) (resource : BossResource) :
    Option String × List ImplCall :=
  let c := ImplCall.get_permissions grp_name resource ps.url_root ps.auth ps.session ps.session_send_opts
  (some (ps.service c), [c])

/-- `ProjectService.add_permissions`: delegates; no `return`. -/
def ProjectService.add_permissions (ps : ProjectService) (grp_name : String) (resource : BossResource)
    (permissions : List String) : Option String × List ImplCall :=
  let c := ImplCall.add_permissions grp_name resource permissions ps.url_root ps.auth ps.session ps.session_send_opts
  (none, [c])

/-- `ProjectService.delete_permissions`: delegates; no `return`. -/
def ProjectService.delete_permissions (ps : ProjectService) (grp_name : String) (resource : BossResource)
    (permissions : List String) : Option String × List ImplCall :=
  let c := ImplCall.delete_permissions grp_name resource permissions ps.url_root ps.auth ps.session ps.session_send_opts
  (none, [c])

/-- `ProjectService.add_user_role`: delegates; no `return`. -/
def ProjectService.add_user_role (ps : ProjectService) (user role : String) :
    Option String × List ImplCall :=
  let c := ImplCall.add_user_role user role ps.url_root ps.auth ps.session ps.session_send_opts
  (none, [c])

/-- `ProjectService.delete_user_role`: delegates; no `return`. -/
def ProjectService.delete_user_role (ps : ProjectService) (user role : String) :
    Option String × List ImplCall :=
  let c := ImplCall.delete_user_role user role ps.url_root ps.auth ps.session ps.session_send_opts
  (none, [c])

/-- `ProjectService.get_user_roles`: delegates and returns the value. -/
def ProjectService.get_user_roles (ps : ProjectService) (user : String) :
    Option String × List ImplCall :=
  let c := ImplCall.get_user_roles user ps.url_root ps.auth ps.session ps.session_send_opts
  (some (ps.service c), [c])

/-- `ProjectService.add_user`: delegates; no `return`. -/
def ProjectService.add_user (ps : ProjectService) (user : String)
    (first_name last_name email password : Option String) : Option String × List ImplCall :=
  let c := ImplCall.add_user user first_name last_name email password ps.url_root ps.auth ps.session ps.session_send_opts
  (none, [c])

/-- `ProjectService.get_user`: delegates and returns the value. -/
def ProjectService.get_user (ps : ProjectService) (user : String) :
    Option String × List ImplCall :=
  let c := ImplCall.get_user user ps.url_root ps.auth ps.session ps.session_send_opts
  (some (ps.service c), [c])

/-- `ProjectService.get_user_groups`: delegates and returns the value. -/
def ProjectService.get_user_groups (ps : ProjectService) (user : String) :
    Option String × List ImplCall :=
  let c := ImplCall.get_user_groups user ps.url_root ps.auth ps.session ps.session_send_opts
  (some (ps.service c), [c])

/-- `ProjectService.delete_user`: delegates; no `return`. -/
def ProjectService.delete_user (ps : ProjectService) (user : String) :
    Option String × List ImplCall :=
  let c := ImplCall.delete_user user ps.url_root ps.auth ps.session ps.session_send_opts
  (none, [c])

/-- Keyword arguments reaching `list`: `ProjectService.list(self,
resource=None, **kwargs)` binds `resource` and silently absorbs any extra
keywords. -/
structure Kwargs where
  resource : Option BossResource
  extra : List (String × String)
deriving DecidableEq, Repr

/-- `ProjectService.list`: delegates with the bound `resource` and returns
the value; extra keywords are absorbed by `**kwargs` and ignored. -/
def ProjectService.list (ps : ProjectService) (kwargs : Kwargs) :
    Option String × List ImplCall :=
  let c := ImplCall.list kwargs.resource ps.url_root ps.auth ps.session ps.session_send_opts
  (some (ps.service c), [c])

/-- `ProjectService.create`: delegates and returns the value. -/
def ProjectService.create (ps : ProjectService) (resource : BossResource) :
    Option String × List ImplCall :=
  let c := ImplCall.create resource ps.url_root ps.auth ps.session ps.session_send_opts
  (some (ps.service c), [c])

/-- `ProjectService.get`: delegates and returns the value. -/
def ProjectService.get (ps : ProjectService) (resource : BossResource) :
    Option String × List ImplCall :=
  let c := ImplCall.get resource ps.url_root ps.auth ps.session ps.session_send_opts
  (some (ps.service c), [c])

/-- `ProjectService.update`: delegates and returns the value. -/
def ProjectService.update (ps : ProjectService) (resource_name : String) (resource : BossResource) :
    Option String × List ImplCall :=
  let c := ImplCall.update resource_name resource ps.url_root ps.auth ps.session ps.session_send_opts
  (some (ps.service c), [c])

/-- `ProjectService.delete`: delegates; no `return`. -/
def ProjectService.delete (ps : ProjectService) (resource : BossResource) :
    Option String × List ImplCall :=
  let c := ImplCall.delete resource ps.url_root ps.auth ps.session ps.session_send_opts
  (none, [c])

/-- The property that each public `ProjectService` method routes its call,
with the plumbing attributes appended, to the selected version-specific
implementation `ps.service`, returning that implementation's value exactly
when the Python method has a `return` statement. -/
def delegatesAll (ps : ProjectService) : Prop :=
  (∀ n u, ps.get_group n u =
    (some (ps.service (.get_group n u ps.url_root ps.auth ps.session ps.session_send_opts)),
     [.get_group n u ps.url_root ps.auth ps.session ps.session_send_opts])) ∧
  (∀ n, ps.create_group n =
    (none, [.create_group n ps.url_root ps.auth ps.session ps.session_send_opts])) ∧
  (∀ n u, ps.delete_group n u =
    (none, [.delete_group n u ps.url_root ps.auth ps.session ps.session_send_opts])) ∧
  (∀ n u, ps.add_user_to_group n u =
    (some (ps.service (.add_user_to_group n u ps.url_root ps.auth ps.session ps.session_send_opts)),
     [.add_user_to_group n u ps.url_root ps.auth ps.session ps.session_send_opts])) ∧
  (∀ g r, ps.get_permissions g r =
    (some (ps.service (.get_permissions g r ps.url_root ps.auth ps.session ps.session_send_opts)),
     [.get_permissions g r ps.url_root ps.auth ps.session ps.session_send_opts])) ∧
  (∀ g r p, ps.add_permissions g r p =
    (none, [.add_permissions g r p ps.url_root ps.auth ps.session ps.session_send_opts])) ∧
  (∀ g r p, ps.delete_permissions g r p =
    (none, [.delete_permissions g r p ps.url_root ps.auth ps.session ps.session_send_opts])) ∧
  (∀ u r, ps.add_user_role u r =
    (none, [.add_user_role u r ps.url_root ps.auth ps.session ps.session_send_opts])) ∧
  (∀ u r, ps.delete_user_role u r =
    (none, [.delete_user_role u r ps.url_root ps.auth ps.session ps.session_send_opts])) ∧
  (∀ u, ps.get_user_roles u =
    (some (ps.service (.get_user_roles u ps.url_root ps.auth ps.session ps.session_send_opts)),
     [.get_user_roles u ps.url_root ps.auth ps.session ps.session_send_opts])) ∧
  (∀ u f l e p, ps.add_user u f l e p =
    (none, [.add_user u f l e p ps.url_root ps.auth ps.session ps.session_send_opts])) ∧
  (∀ u, ps.get_user u =
    (some (ps.service (.get_user u ps.url_root ps.auth ps.session ps.session_send_opts)),
     [.get_user u ps.url_root ps.auth ps.session ps.session_send_opts])) ∧
  (∀ u, ps.get_user_groups u =
    (some (ps.service (.get_user_groups u ps.url_root ps.auth ps.session ps.session_send_opts)),
     [.get_user_groups u ps.url_root ps.auth ps.session ps.session_send_opts])) ∧
  (∀ u, ps.delete_user u =
    (none, [.delete_user u ps.url_root ps.auth ps.session ps.session_send_opts])) ∧
  (∀ kw, ps.list kw =
    (some (ps.service (.list kw.resource ps.url_root ps.auth ps.session ps.session_send_opts)),
     [.list kw.resource ps.url_root ps.auth ps.session ps.session_send_opts])) ∧
  (∀ r, ps.create r =
    (some (ps.service (.create r ps.url_root ps.auth ps.session ps.session_send_opts)),
     [.create r ps.url_root ps.auth ps.session ps.session_send_opts])) ∧
  (∀ r, ps.get r =
    (some (ps.service (.get r ps.url_root ps.auth ps.session ps.session_send_opts)),
     [.get r ps.url_root ps.auth ps.session ps.session_send_opts])) ∧
  (∀ n r, ps.update n r =
    (some (ps.service (.update n r ps.url_root ps.auth ps.session ps.session_send_opts)),
     [.update n r ps.url_root ps.auth ps.session ps.session_send_opts])) ∧
  (∀ r, ps.delete r =
    (none, [.delete r ps.url_root ps.auth ps.session ps.session_send_opts]))

end Intern

namespace PyCfg

/-- A Python value stored in a config dict handed to `Remote`. -/
inductive PyVal
  | str (s : String)
  | int (n : Int)
  | bool (b : Bool)
deriving DecidableEq, Repr

/-- Python `str()` of such a value, as interpolated by
`"{}{} = {}\n".format(cfg_str, key, cfg_file_or_dict[key])`. -/
def pyStr : PyVal → String
  | .str s => s
  | .int n => toString n
  | .bool b => if b then "True" else "False"

/-- Python whitespace (the characters stripped by `str.strip()` and
recognised by `str.isspace()`). -/
def isSpaceChar (c : Char) : Bool :=
  c == ' ' || c == '\t' || c == '\n' || c == '\r' || c == '\x0b' || c == '\x0c'

/-- Drop leading whitespace (Python `lstrip`). -/
def stripL : List Char → List Char
  | [] => []
  | c :: cs => if isSpaceChar c then stripL cs else c :: cs

/-- Drop trailing whitespace (Python `rstrip`). -/
def stripR (cs : List Char) : List Char := (stripL cs.reverse).reverse

/-- Python `strip`. -/
def strip (cs : List Char) : List Char := stripR (stripL cs)

/-- Python `str.lower` on the ASCII keys used here (`optionxform`). -/
def lowerL (cs : List Char) : List Char := cs.map Char.toLower

/-- Split a buffer into lines at newline characters, the way
`ConfigParser.readfp` consumes `fp.readline()` output (the `'\n'` itself is
stripped by the parser's own handling; a trailing newline yields a final
empty line which the parser skips as blank). -/
def splitLines : List Char → List (List Char)
  | [] => [[]]
  | c :: cs =>
    if c = '\n' then [] :: splitLines cs
    else
      match splitLines cs with
      | [] => [[c]]
      | l :: ls => (c :: l) :: ls

/-- Association-list lookup used for sections and options. -/
def lookupA {α : Type} (k : List Char) : List (List Char × α) → Option α
  | [] => none
  | (k', v) :: rest => if k' = k then some v else lookupA k rest

/-- Association-list update: overwrite an existing binding (Python dict
assignment `cursect[optname] = optval`) or append a new one. -/
def updAssoc {α : Type} (k : List Char) (v : α) : List (List Char × α) → List (List Char × α)
  | [] => [(k, v)]
  | (k', v') :: rest => if k' = k then (k, v) :: rest else (k', v') :: updAssoc k v rest

/-- Append a continuation line to an existing option value
(`cursect[optname] = "%s\n%s" % (cursect[optname], value)`). -/
def appendOpt (k : List Char) (extra : List Char) :
    List (List Char × List Char) → List (List Char × List Char)
  | [] => []
  | (k', v') :: rest =>
    if k' = k then (k', v' ++ '\n' :: extra) :: rest else (k', v') :: appendOpt k extra rest

/-- Find the first `:` or `=` delimiter of an option line, returning the
raw text before and after it (the `OPTCRE` regular expression). -/
def findDelim : List Char → Option (List Char × List Char)
  | [] => none
  | c :: cs =>
    if c = ':' ∨ c = '=' then some ([], cs)
    else
      match findDelim cs with
      | none => none
      | some (pre, post) => some (c :: pre, post)

/-- Strip a trailing `;` comment from an option value: the Python 2 parser
truncates at the first `;` whose preceding character is whitespace (for a
leading `;` it inspects `optval[-1]`, i.e. the last character). -/
def commentStrip (v : List Char) : List Char :=
  match v.findIdx? (· = ';') with
  | none => v
  | some i =>
    let prev := if i = 0 then v.length - 1 else i - 1
    match v.get? prev with
    | some c => if isSpaceChar c then v.take i else v
    | none => v

/-- Parse a `[section]` header (`SECTCRE`): a `[`, one or more non-`]`
characters, then a `]`; anything after the `]` is ignored. -/
def parseSection (cs : List Char) : Option (List Char) :=
  match cs with
  | [] => none
  | c :: rest =>
    if c = '[' then
      let hdr := rest.takeWhile (· ≠ ']')
      if hdr.length > 0 ∧ hdr.length < rest.length then some hdr else none
    else none

/-- Parse an option line: text before the first delimiter, right-stripped
and lowercased, is the key (its first character must not be a delimiter);
the value is left-stripped by the regular expression, comment-stripped,
stripped, and `""` denotes the empty value. -/
def parseOption (line : List Char) : Option (List Char × List Char) :=
  match findDelim line with
  | none => none
  | some (pre, post) =>
    match pre with
    | [] => none
    | c0 :: _ =>
      if isSpaceChar c0 then none
      else
        let key := lowerL (stripR pre)
        let v := strip (commentStrip (stripL post))
        some (key, if v = ['"', '"'] then [] else v)

/-- Whether a line is one of the `rem` comment forms recognised by the
Python 2 parser (`line.split(None, 1)[0].lower() == 'rem'` with a leading
`r`/`R`). -/
def isRemLine (line : List Char) : Bool :=
  (line.head? = some 'r' ∨ line.head? = some 'R') ∧
  lowerL ((stripL line).takeWhile (fun c => ! isSpaceChar c)) = ['r', 'e', 'm']

/-- Where option writes currently go. -/
inductive CurSect
  | nothing
  | defaultSect
  | named (name : List Char)
deriving DecidableEq, Repr

/-- Parser state while reading a config buffer. -/
structure CfgState where
  defaults : List (List Char × List Char)
  sections : List (List Char × List (List Char × List Char))
  cursect : CurSect
  optname : Option (List Char)
  err : Bool
deriving DecidableEq, Repr

/-- A key is INI-safe when the line `key = value` built for it parses back
to the same key: nonempty, no delimiter or whitespace characters, not
opening a comment or section header, and not the `rem` comment word. -/
def iniSafeKey (k : List Char) : Bool :=
  !k.isEmpty &&
  k.all (fun c => !(c == ':' || c == '=' || isSpaceChar c)) &&
  (match k with
   | [] => false
   | c :: _ => !(c == '#' || c == ';' || c == '[')) &&
  !(lowerL k == ['r', 'e', 'm'])

/-- A value string is INI-safe when the parser's value normalisation
(left/right strip, inline-comment strip, the `""` convention) leaves it
unchanged and it stays on one line. -/
def iniSafeVal (v : List Char) : Bool :=
  v.all (fun c => !(c == '\n' || c == '\r')) &&
  (stripL v == v) &&
  (stripR v == v) &&
  (commentStrip v == v) &&
  !(v == ['"', '"'])

/-- The characters of the `"key = value"` line generated for one dict
entry. -/
def lineOf (kv : String × PyVal) : List Char :=
  kv.1.data ++ ' ' :: '=' :: ' ' :: (pyStr kv.2).data

/-- Join lines with newline terminators. -/
def joinLines : List (List Char) → List Char
  | [] => []
  | l :: ls => l ++ '\n' :: joinLines ls

/-- The effect of a dict's option lines on an option block: each entry
overwrites the lowercased key with the stringified value. -/
def applyDict (opts : List (List Char × List Char)) (d : List (String × PyVal)) :
    List (List Char × List Char) :=
  d.foldl (fun o kv => updAssoc (lowerL kv.1.data) (pyStr kv.2).data o) opts

/-- A parsed configuration: the `DEFAULT` option block plus the named
sections. -/
structure Ini where
  defaults : List (List Char × List Char)
  sections : List (List Char × List (List Char × List Char))
deriving DecidableEq, Repr

/-- Register a section on first sight of its header. -/
def ensureSection (name : List Char)
    (secs : List (List Char × List (List Char × List Char))) :
    List (List Char × List (List Char × List Char)) :=
  match lookupA name secs with
  | some _ => secs
  | none => secs ++ [(name, [])]

/-- Write an option into the block the parser is currently in. -/
def writeOpt (st : CfgState) (k v : List Char) : CfgState :=
  match st.cursect with
  | .nothing => st
  | .defaultSect => { st with defaults := updAssoc k v st.defaults, optname := some k }
  | .named n =>
    { st with
      sections := updAssoc n (updAssoc k v ((lookupA n st.sections).getD [])) st.sections,
      optname := some k }

/-- Append a continuation to the current option of the current block. -/
def contOpt (st : CfgState) (k extra : List Char) : CfgState :=
  match st.cursect with
  | .nothing => st
  | .defaultSect => { st with defaults := appendOpt k extra st.defaults }
  | .named n =>
    { st with sections := updAssoc n (appendOpt k extra ((lookupA n st.sections).getD [])) st.sections }

/-- Process one line of input, following `ConfigParser._read` of the
Python 2 standard library (the flavour `six.moves.configparser` resolves
to under Python 2, which this 2016 code targets): blank and comment lines
are skipped, leading whitespace marks a continuation of the previous
option, `[DEFAULT]` selects the defaults block, an option line before any
section header aborts with `MissingSectionHeaderError`, and an
unparsable line is recorded and reported as `ParsingError` at the end. -/
def procLine (st : CfgState) (line : List Char) : Except PyErr CfgState :=
  if strip line = [] then .ok st
  else if line.head? = some '#' ∨ line.head? = some ';' then .ok st
  else if isRemLine line then .ok st
  else if isSpaceChar (line.headD 'x') ∧ st.cursect ≠ .nothing ∧ st.optname ≠ none then
    match st.optname with
    | none => .ok st
    | some k =>
      let value := strip line
      .ok (if value = [] then st else contOpt st k value)
  else
    match parseSection line with
    | some hdr =>
      if hdr = "DEFAULT".data then .ok { st with cursect := .defaultSect, optname := none }
      else
        .ok { st with
              cursect := .named hdr,
              optname := none,
              sections := ensureSection hdr st.sections }
    | none =>
      match st.cursect with
      | .nothing => .error .missingSectionHeaderError
      | _ =>
        match parseOption line with
        | some (k, v) => .ok (writeOpt st k v)
        | none => .ok { st with err := true }

/-- Fold `procLine` over a list of lines. -/
def procLines (st : CfgState) : List (List Char) → Except PyErr CfgState
  | [] => .ok st
  | l :: ls =>
    match procLine st l with
    | .ok st' => procLines st' ls
    | .error e => .error e

/-- `ConfigParser().readfp(handle)` on the whole buffer: parse every line,
then raise the collected `ParsingError` if any line was unparsable. -/
def readfp (s : String) : Except PyErr Ini :=
  match procLines ⟨[], [], .nothing, none, false⟩ (splitLines s.data) with
  | .error e => .error e
  | .ok st => if st.err then .error .parsingError else .ok ⟨st.defaults, st.sections⟩

/-- `ConfigParser.get(section, option)`: the section's options override the
defaults, and the queried option name is passed through `optionxform`
(lowercasing); `none` models the `NoSectionError`/`NoOptionError`
outcomes. -/
def Ini.get (ini : Ini) (sect opt : String) : Option String :=
  match (if sect.data = "DEFAULT".data then some [] else lookupA sect.data ini.sections) with
  | none => none
  | some sec =>
    let k := lowerL opt.data
    match lookupA k sec with
    | some v => some (String.mk v)
    | none => (lookupA k ini.defaults).map String.mk

end PyCfg

namespace Intern

open PyCfg

/-- The filesystem as `Remote.__init__` sees it: `os.path.isfile`, reading
a file's text, and the home directory used by `os.path.expanduser`. -/
structure FS where
  isfile : String → Bool
  read : String → String
  home : String

/-- `CONFIG_FILE` from `src/intern/remote/remote.py`. -/
def CONFIG_FILE : String := "~/.intern/intern.cfg"

/-- A call made on the volume service by the cutout dispatchers, with the
exact arguments `Remote` forwards. -/
inductive VolumeCall
  | get_cutout (resource : Resource) (resolution : Int)
      (x_range y_range z_range : List Int) (time_range : Option (List Int))
  | create_cutout (resource : Resource) (resolution : Int)
      (x_range y_range z_range : List Int) (data : String) (time_range : Option (List Int))
deriving DecidableEq, Repr

/-- The attribute state of a `Remote` object.  `__init__` starts every
service handle and token at `None`; concrete subclasses attach the actual
service objects, which are modelled as response functions over calls. -/
structure RemoteState where
  _volume : Option (VolumeCall → String)
  _metadata : Option Unit
  _project : Option ProjectService
  _object : Option Unit
  _config : Option Ini
  _token_project : Option String
  _token_metadata : Option String
  _token_volume : Option String
  _token_object : Option String

/-- `Remote.load_config_file`: build a parser and `readfp` the handle. -/
def Remote.load_config_file (s : String) : Except PyErr Ini := readfp s

/-- The INI text `Remote.__init__` builds from a config dict:
`"[Default]\n"` followed by one `"key = value"` line per entry. -/
def cfgStrOfDict (d : List (String × PyVal)) : String :=
  d.foldl (fun acc kv => acc ++ kv.1 ++ " = " ++ pyStr kv.2 ++ "\n") "[Default]\n"

/-- The argument of `Remote.__init__`. -/
inductive CfgArg
  | dict (d : List (String × PyVal))
  | path (p : String)
  | noneArg
deriving Repr

/-- The file-path branch of `Remote.__init__`: parse the file when
`os.path.isfile` holds, otherwise raise
`IOError("Configuration file not found: ...")` with `_config` still at its
initial `None`. -/
def Remote.initPath (fs : FS) (base : RemoteState) (p : String) : RemoteState × Option PyErr :=
  if fs.isfile p then
    match Remote.load_config_file (fs.read p) with
    | .ok ini => ({ base with _config := some ini }, none)
    | .error e => (base, some e)
  else
    (base, some (.ioError ("Configuration file not found: " ++ p)))

/-- `Remote.__init__`: all attributes start at `None`; a `None` argument is
replaced by the expanded `CONFIG_FILE` path; a dict is serialised to an INI
string and parsed; any other argument is treated as a file path.  The
second component is the exception the constructor raises, if any. -/
def Remote.init (fs : FS) (arg : CfgArg) : RemoteState × Option PyErr :=
  let base : RemoteState := ⟨none, none, none, none, none, none, none, none, none⟩
  match arg with
  | .dict d =>
    match Remote.load_config_file (cfgStrOfDict d) with
    | .ok ini => ({ base with _config := some ini }, none)
    | .error e => (base, some e)
  | .path p => Remote.initPath fs base p
  | .noneArg => Remote.initPath fs base (fs.home ++ "/.intern/intern.cfg")

/-- `Remote.list_project(**kwargs)`: forwards the keyword arguments to the
project service's `list` unchanged. -/
def Remote.list_project (r : RemoteState) (kwargs : Kwargs) :
    Except PyErr (Option String × List ImplCall) :=
  match r._project with
  | none => .error (.attributeError "NoneType object has no attribute list")
  | some ps => .ok (ps.list kwargs)

/-- `Remote.get_cutout`: reject resources whose `valid_volume()` is false
with `RuntimeError`, otherwise forward everything to the volume service.
The result carries the (unchanged) remote state and the trace of volume
service calls. -/
def Remote.get_cutout (r : RemoteState) (resource : Resource) (resolution : Int)
    (x_range y_range z_range : List Int) (time_range : Option (List Int)) :
    Except PyErr String × RemoteState × List VolumeCall :=
  if !resource.valid_volume then
    (.error (.runtimeError "Resource incompatible with the volume service."), r, [])
  else
    match r._volume with
    | none => (.error (.attributeError "NoneType object has no attribute get_cutout"), r, [])
    | some volume =>
      let c := VolumeCall.get_cutout resource resolution x_range y_range z_range time_range
      (.ok (volume c), r, [c])

/-- `Remote.create_cutout`: same validity gate, then forward to the volume
service's `create_cutout`. -/
def Remote.create_cutout (r : RemoteState) (resource : Resource) (resolution : Int)
    (x_range y_range z_range : List Int) (data : String) (time_range : Option (List Int)) :
    Except PyErr String × RemoteState × List VolumeCall :=
  if !resource.valid_volume then
    (.error (.runtimeError "Resource incompatible with the volume service."), r, [])
  else
    match r._volume with
    | none => (.error (.attributeError "NoneType object has no attribute create_cutout"), r, [])
    | some volume =>
      let c := VolumeCall.create_cutout resource resolution x_range y_range z_range data time_range
      (.ok (volume c), r, [c])

end Intern

namespace Ndio

/-- A single-quote character, used by `m2g.__repr__`. -/
def sq : Char := Char.ofNat 39

/-- A single-quote as a string. -/
def sqs : String := String.singleton sq

/-- `DEFAULT_HOSTNAME` from `src/ndio/remote/m2g.py`. -/
def DEFAULT_HOSTNAME : String := "openconnecto.me"

/-- `DEFAULT_PROTOCOL`. -/
def DEFAULT_PROTOCOL : String := "http"

/-- `DEFAULT_EMAIL`. -/
def DEFAULT_EMAIL : String := ""

/-- `Invariants.SCAN_STATISTIC` (alias `ss1`). -/
def Invariants.SCAN_STATISTIC : String := "ss1"

/-- `Invariants.TRIANGLE_COUNT` (alias `tri`). -/
def Invariants.TRIANGLE_COUNT : String := "tri"

/-- `Invariants.CLUSTERING` (alias `cc`). -/
def Invariants.CLUSTERING : String := "cc"

/-- `Invariants.MAX_AVG_DEGREE` (alias `mad`). -/
def Invariants.MAX_AVG_DEGREE : String := "mad"

/-- `Invariants.LOCAL_DEGREE` (alias `deg`). -/
def Invariants.LOCAL_DEGREE : String := "deg"

/-- `Invariants.EIGENS` (alias `eig`). -/
def Invariants.EIGENS : String := "eig"

/-- `Invariants.ALL`.  The source spells the elements `self.SCAN_STATISTIC`
and so on inside the class body; the evident value of the table is this
list. -/
def Invariants.ALL : List String :=
  [Invariants.SCAN_STATISTIC, Invariants.TRIANGLE_COUNT, Invariants.CLUSTERING,
   Invariants.MAX_AVG_DEGREE, Invariants.LOCAL_DEGREE, Invariants.EIGENS]

/-- `InputFormats._any`, the recognised graph input formats. -/
def InputFormats._any : List String :=
  ["graphml", "ncol", "edgelist", "lgl", "pajek", "graphdb", "numpy", "mat"]

/-- The `m2g` remote: its ndio `Remote` base class (imported with
`from Remote import Remote`, a module not part of this tree) stores the
hostname and protocol; `m2g.__init__` additionally stores the email. -/
structure m2g where
  hostname : String
  protocol : String
  email : String
deriving DecidableEq, Repr

/-- `m2g.SMALL` (alias `S`). -/
def m2g.SMALL : String := "s"

/-- `m2g.BIG` (alias `B`). -/
def m2g.BIG : String := "b"

/-- `m2g.__init__(hostname, protocol, email)`. -/
def m2g.init (hostname protocol email : String) : m2g :=
  ⟨hostname, protocol, email⟩

/-- Modelled from the spec: `Remote.url` of ndio's `Remote` base class
(module `Remote`, not under `src/`); the base class holds the hostname and
protocol of the REST endpoint and prefixes request paths with
`protocol://hostname`. -/
def Remote_url (hostname protocol suffix : String) : String :=
  protocol ++ "://" ++ hostname ++ suffix

/-- `m2g.url(suffix)`: `super(m2g, self).url('/graph-services/' + suffix)`. -/
def m2g.url (x : m2g) (suffix : String) : String :=
  Remote_url x.hostname x.protocol ("/graph-services/" ++ suffix)

/-- `m2g.__repr__`: the string
`ndio.remote.m2g('{hostname}', '{protocol}', '{email}')`. -/
def m2g.repr (x : m2g) : String :=
  "ndio.remote.m2g(" ++ sqs ++ x.hostname ++ sqs ++ ", " ++ sqs ++ x.protocol ++ sqs ++
    ", " ++ sqs ++ x.email ++ sqs ++ ")"

/-- Decode one backslash escape the way the Python lexer does inside a
single-quoted string literal: the usual escape letters, a backslash before
an actual line break is a line continuation contributing nothing, and
unrecognised escapes keep the backslash. -/
def pyEscape (c : Char) : List Char :=
  if c = 'n' then ['\n']
  else if c = 't' then ['\t']
  else if c = 'r' then ['\r']
  else if c = '\n' then []
  else if c = '\r' then []
  else if c = '\\' then ['\\']
  else if c = sq then [sq]
  else if c = '"' then ['"']
  else ['\\', c]

/-- Scan the body of a single-quoted Python string literal: the characters
up to the closing quote with escapes decoded, and the remaining input.
`none` models a syntax error: an unterminated literal, or a raw (unescaped)
line break inside the literal, where the tokenizer raises
`SyntaxError: EOL while scanning string literal`. -/
def parseSQLit : List Char → Option (List Char × List Char)
  | [] => none
  | c :: cs =>
    if c = sq then some ([], cs)
    else if c = '\n' ∨ c = '\r' then none
    else if c = '\\' then
      match cs with
      | [] => none
      | e :: cs' =>
        match parseSQLit cs' with
        | none => none
        | some (lit, rest) => some (pyEscape e ++ lit, rest)
    else
      match parseSQLit cs with
      | none => none
      | some (lit, rest) => some (c :: lit, rest)

/-- Expect a literal prefix of the input, returning the rest. -/
def expects : List Char → List Char → Option (List Char)
  | [], s => some s
  | p :: ps, s =>
    match s with
    | [] => none
    | c :: cs => if c = p then expects ps cs else none

/-- Parse one single-quoted string argument (opening quote then body). -/
def parseArg (s : List Char) : Option (List Char × List Char) :=
  match s with
  | [] => none
  | c :: cs => if c = sq then parseSQLit cs else none

/-- Model of Python `eval` restricted to expressions of the shape
`m2g.__repr__` produces: the constructor call
`ndio.remote.m2g('...', '...', '...')` with three single-quoted string
literals, which evaluates to `m2g.init` of the three decoded strings.
`none` models a `SyntaxError`/`TypeError` (the text is not such a call). -/
def evalM2gRepr (s : String) : Option m2g :=
  match expects "ndio.remote.m2g(".data s.data with
  | none => none
  | some r0 =>
    match parseArg r0 with
    | none => none
    | some (h, r1) =>
      match expects (", ".data) r1 with
      | none => none
      | some r2 =>
        match parseArg r2 with
        | none => none
        | some (p, r3) =>
          match expects (", ".data) r3 with
          | none => none
          | some r4 =>
            match parseArg r4 with
            | none => none
            | some (e, r5) =>
              match r5 with
              | [')'] => some (m2g.init (String.mk h) (String.mk p) (String.mk e))
              | _ => none

/-- The environment `m2g`'s upload helpers run in: whether zipping the
given files succeeds, the HTTP responses (`none` is a failed request), and
`os.path.exists`. -/
structure Env where
  zip_ok : String → Option String → Bool
  http : String → Option String
  exists_file : String → Bool

/-- A callback argument as the validation code inspects it:
`hasattr(callback, '__call__')` and the length of
`inspect.getargspec(callback).args` (`getargspec` is modelled as total on
callables). -/
structure Callback where
  has_call : Bool
  args : Nat
deriving DecidableEq, Repr

/-- What a Python call does: raise, or return a value (`none` is `None`). -/
inductive PyRet
  | raises (e : PyErr)
  | returns (v : Option String)
deriving DecidableEq, Repr

/-- Result of running one of the `m2g` entry points: the raised/returned
outcome, the URLs of HTTP requests actually attempted (foreground or on
the background thread), and the arguments the callback was invoked with. -/
structure CallResult where
  main : PyRet
  uploads : List String
  callback_calls : List String
deriving DecidableEq, Repr

/-- The name `file_file` written by `_run_build_graph`
(`zfile.write(file_file)`) is unbound in the module: evaluating it raises
`NameError`. -/
def file_file : Except PyErr String := .error (.nameError "file_file")

/-- The expression `GraphFormats._any` used by `compute_invariants` and
`convert_graph`: the module defines no `GraphFormats` (the class it does
define is `InputFormats`), so evaluating the name raises `NameError`. -/
def GraphFormats_any : Except PyErr (List String) := .error (.nameError "GraphFormats")

/-- The name `fiber_file` used by `compute_invariants`'s foreground branch
(`self._run_compute_invariants(url, fiber_file)`) is unbound there. -/
def fiber_file : Except PyErr String := .error (.nameError "fiber_file")

/-- The expression `result.fileToConvert` zipped by `convert_graph`: the
name `result` is unbound. -/
def result_fileToConvert : Except PyErr String := .error (.nameError "result")

/-- `set(invariants) <= set(Invariants.ALL)`. -/
def subsetInv (invs : List String) : Bool :=
  invs.all (fun i => Invariants.ALL.contains i)

/-- `m2g._run_build_graph(url, fiber_file, atlas_file, callback)`.  The
`try` block opens a temp file and writes `file_file` into the zip; that
name is unbound, so the bare `except:` always converts the `NameError`
into the `ValueError` below before any request is attempted.  The `.ok`
branch keeps the structure of the remaining (unreachable) code: POST the
archive to `self.url(url)`, then either hand the response to the callback
or return its body, with any failure re-raised as
`RemoteDataUploadError`. -/
def m2g._run_build_graph (x : m2g) (env : Env) (url fiber : String)
    (atlas_file : Option String) (callback : Option Callback) : CallResult :=
  match file_file with
  | .error _ =>
    ⟨.raises (.valueError "Invalid atlas or fiber file. I dont have any more information than that, sorry!"),
     [], []⟩
  | .ok _ =>
    let full := m2g.url x url
    match env.http full with
    | none => ⟨.raises (.remoteDataUploadError ("Failed to upload data at " ++ url)), [full], []⟩
    | some body =>
      match callback with
      | some _ => ⟨.returns none, [full], [body]⟩
      | none => ⟨.returns (some body), [full], []⟩

/-- The arguments of `m2g.build_graph`.  The defaults written at the `def`
site (`email=self.email`, `fiber_file=DEFAULT_FIBER_FILE`) are supplied by
the caller here; `DEFAULT_FIBER_FILE` is itself an unbound module name. -/
structure BuildGraphArgs where
  project : String
  site : String
  subject : String
  session : String
  scan : String
  size : String
  email : String
  invariants : List String
  fiber_file : String
  atlas_file : Option String
  use_threads : Bool
  callback : Option Callback

/-- The URL string `build_graph` assembles:
`"buildgraph/{}/{}/{}/{}/{}/{}/{}/{}/".format(project, site, subject,
session, scan, size, email, "/".join(invariants))`. -/
def m2g.buildGraphUrl (a : BuildGraphArgs) : String :=
  "buildgraph/" ++ a.project ++ "/" ++ a.site ++ "/" ++ a.subject ++ "/" ++ a.session ++
    "/" ++ a.scan ++ "/" ++ a.size ++ "/" ++ a.email ++ "/" ++
    String.intercalate "/" a.invariants ++ "/"

/-- The callback validation of `build_graph`/`compute_invariants`
(`if use_threads and callback is not None: ...`): the `ValueError` it
raises, if any. -/
def callbackErr (use_threads : Bool) (callback : Option Callback) : Option PyErr :=
  if use_threads then
    match callback with
    | none => none
    | some cb =>
      if !cb.has_call then some (.valueError "callback must be a function.")
      else if cb.args ≠ 1 then some (.valueError "callback must take exactly 1 argument.")
      else none
  else none

/-- `m2g.build_graph`: validate the invariants, the callback, the size and
the assembled URL in source order, then run `_run_build_graph` on a
background thread (returning `None`, with any exception in the thread
swallowed by the threading module) or in the foreground (note the
foreground call passes no callback). -/
def m2g.build_graph (x : m2g) (env : Env) (a : BuildGraphArgs) : CallResult :=
  if ¬ subsetInv a.invariants then
    ⟨.raises (.valueError "Invariants must be a subset of Invariants.ALL."), [], []⟩
  else
    match callbackErr a.use_threads a.callback with
    | some e => ⟨.raises e, [], []⟩
    | none =>
      if ¬ (a.size = m2g.BIG ∨ a.size = m2g.SMALL) then
        ⟨.raises (.valueError "size must be either m2g.BIG or m2g.SMALL."), [], []⟩
      else
        let url := m2g.buildGraphUrl a
        if url.data.contains ' ' then
          ⟨.raises (.valueError "Arguments must not contain spaces."), [], []⟩
        else if a.use_threads then
          let bg := m2g._run_build_graph x env url a.fiber_file a.atlas_file a.callback
          ⟨.returns none, bg.uploads, bg.callback_calls⟩
        else
          m2g._run_build_graph x env url a.fiber_file a.atlas_file none

/-- The arguments of `m2g.compute_invariants`. -/
structure ComputeInvArgs where
  graph_file : String
  input_format : String
  invariants : List String
  email : String
  use_threads : Bool
  callback : Option Callback

/-- `m2g._run_compute_invariants(url, graph_file, callback)`: zip the graph
file (re-raising any failure as `ValueError`), POST the archive, then
either invoke the callback on the response body or return it; request
failures become `RemoteDataUploadError`. -/
def m2g._run_compute_invariants (x : m2g) (env : Env) (url graph_file : String)
    (callback : Option Callback) : CallResult :=
  if ¬ env.zip_ok graph_file none then
    ⟨.raises (.valueError "Unable to zip graph file for upload."), [], []⟩
  else
    let full := m2g.url x url
    match env.http full with
    | none =>
      ⟨.raises (.remoteDataUploadError "Failed to upload graph file. Try troubleshooting with a ping()?"),
       [full], []⟩
    | some body =>
      match callback with
      | some _ => ⟨.returns none, [full], [body]⟩
      | none => ⟨.returns (some body), [full], []⟩

/-- `m2g.compute_invariants`: the first statement evaluates
`GraphFormats._any`, an unbound name, so every call raises `NameError`
before any further validation.  The `.ok` branch keeps the structure of
the rest of the body as written: format/invariants/callback validation,
URL assembly, the space and file-existence checks, then the threaded
branch or the foreground call (which itself names the unbound
`fiber_file`). -/
def m2g.compute_invariants (x : m2g) (env : Env) (a : ComputeInvArgs) : CallResult :=
  match GraphFormats_any with
  | .error e => ⟨.raises e, [], []⟩
  | .ok fmts =>
    if ¬ fmts.contains a.input_format then
      ⟨.raises (.valueError ("Invalid input format, " ++ a.input_format ++ ".")), [], []⟩
    else if ¬ subsetInv a.invariants then
      ⟨.raises (.valueError "Invariants must be a subset of Invariants.ALL."), [], []⟩
    else
      match callbackErr a.use_threads a.callback with
      | some e => ⟨.raises e, [], []⟩
      | none =>
        let url := "/graphupload/" ++ a.email ++ "/" ++ a.input_format ++ "/" ++
          String.intercalate "/" a.invariants ++ "/"
        if url.data.contains ' ' then
          ⟨.raises (.valueError "Arguments cannot have spaces in them."), [], []⟩
        else if ¬ env.exists_file a.graph_file then
          ⟨.raises (.valueError ("File " ++ a.graph_file ++ " does not exist.")), [], []⟩
        else if a.use_threads then
          let bg := m2g._run_compute_invariants x env url a.graph_file a.callback
          ⟨.returns none, bg.uploads, bg.callback_calls⟩
        else
          match fiber_file with
          | .error e => ⟨.raises e, [], []⟩
          | .ok f => m2g._run_compute_invariants x env url f none

/-- The arguments of `m2g.convert_graph`. -/
structure ConvertArgs where
  graph_file : String
  input_format : String
  output_formats : List String
  email : Option String
  use_threads : Bool
  callback : Option Callback

/-- `m2g.convert_graph`: again the first statement evaluates the unbound
`GraphFormats._any`, raising `NameError` on every call.  The `.ok` branch
keeps the structure of the body as written: output-format and callback
validation, file-existence check, zipping `result.fileToConvert` (another
unbound name, with no `try` around it), URL assembly, the space check, and
the final unconditional `NotImplementedError`; no HTTP request appears
anywhere in the body. -/
def m2g.convert_graph (x : m2g) (env : Env) (a : ConvertArgs) : CallResult :=
  match GraphFormats_any with
  | .error e => ⟨.raises e, [], []⟩
  | .ok fmts =>
    if ¬ fmts.contains a.input_format then
      ⟨.raises (.valueError ("Invalid input format " ++ a.input_format ++ ".")), [], []⟩
    else if ¬ a.output_formats.all (fun f => fmts.contains f) then
      ⟨.raises (.valueError "Output formats must be a GraphFormats."), [], []⟩
    else
      match callbackErr a.use_threads a.callback with
      | some e => ⟨.raises e, [], []⟩
      | none =>
        if ¬ env.exists_file a.graph_file then
          ⟨.raises (.valueError ("No such file, " ++ a.graph_file ++ "!")), [], []⟩
        else
          match result_fileToConvert with
          | .error e => ⟨.raises e, [], []⟩
          | .ok _ =>
            let url := "convert/" ++ (a.email.getD "None") ++ "/" ++ a.input_format ++ "/" ++
              String.intercalate "," a.output_formats ++ "/"
            if url.data.contains ' ' then
              ⟨.raises (.valueError "Spaces are not permitted in arguments."), [], []⟩
            else
              ⟨.raises .notImplementedError, [], []⟩

/-- All of `build_graph`'s validation checks pass: the invariants are a
subset of `Invariants.ALL`, the callback check raises nothing, the size is
`m2g.BIG` or `m2g.SMALL`, and the assembled URL has no space. -/
def passesValidation (a : BuildGraphArgs) : Prop :=
  subsetInv a.invariants = true ∧
  callbackErr a.use_threads a.callback = none ∧
  (a.size = m2g.BIG ∨ a.size = m2g.SMALL) ∧
  (m2g.buildGraphUrl a).data.contains ' ' = false

/-- A string that survives the round trip through a single-quoted Python
string literal unchanged: no quote, no backslash and no line-break
characters (a raw newline or carriage return inside the literal is a
`SyntaxError`). -/
def pyLitSafe (s : String) : Prop :=
  ∀ c ∈ s.data, ¬ (c = sq ∨ c = '\\' ∨ c = '\n' ∨ c = '\r')

end Ndio

/-- A concrete version-implementation response function (for witnesses). -/
def sampleImpl : Intern.ImplCall → String := fun _ => "impl-response"

/-- A concrete volume-service response function (for witnesses). -/
def sampleVolume : Intern.VolumeCall → String := fun _ => "cutout-bytes"

/-- A concrete `ProjectService` (for witnesses). -/
def sampleProject : Intern.ProjectService :=
  ⟨"api.boss.io", sampleImpl, "https://api.boss.io/v0.7/", "Token tok", "sess", "opts"⟩

/-- A concrete configured remote (for witnesses). -/
def sampleRemote : Intern.RemoteState :=
  ⟨some sampleVolume, none, some sampleProject, none, none, none, none, none, none⟩

/-- A concrete cutout-compatible resource (for witnesses). -/
def sampleRes : Intern.Resource := ⟨"chan1", true⟩

/-- A concrete filesystem with no files (for witnesses and the config
counterexample; the dict branch of `Remote.__init__` never consults it). -/
def fs0 : Intern.FS := ⟨fun _ => false, fun _ => "", "/home/user"⟩

/-- A concrete `m2g` remote. -/
def x0 : Ndio.m2g := ⟨"openconnecto.me", "http", "user@jhu.edu"⟩

/-- A fully cooperative environment: zipping succeeds, every request gets a
`200` body, every file exists. -/
def env1 : Ndio.Env := ⟨fun _ _ => true, fun _ => some "ok-body", fun _ => true⟩

/-- Valid `build_graph` arguments running on a background thread with a
one-argument callback. -/
def aThreads : Ndio.BuildGraphArgs :=
  ⟨"proj", "site", "subj", "sess", "scan", "b", "user@jhu.edu",
   Ndio.Invariants.ALL, "fibers.dat", none, true, some ⟨true, 1⟩⟩

/-- Valid `build_graph` arguments running in the foreground. -/
def aFore : Ndio.BuildGraphArgs :=
  ⟨"proj", "site", "subj", "sess", "scan", "b", "user@jhu.edu",
   Ndio.Invariants.ALL, "fibers.dat", none, false, none⟩

/-- C1: a resource failing `valid_volume()` makes `Remote.get_cutout` and
`Remote.create_cutout` raise `RuntimeError` without invoking the volume
service and with the remote state unchanged; a resource passing it makes
each call return exactly the volume service's `get_cutout`
(resp. `create_cutout`) on the same arguments. -/
theorem remote_cutout_dispatch (r : Intern.RemoteState) (vf : Intern.VolumeCall → String)
    (res : Intern.Resource) (resolution : Int) (x y z : List Int) (data : String)
    (t : Option (List Int)) (hv : r._volume = some vf) :
    Intern.Remote.get_cutout r res resolution x y z t =
      ((if res.valid_volume then
          .ok (vf (.get_cutout res resolution x y z t))
        else .error (.runtimeError "Resource incompatible with the volume service.")), r,
       (if res.valid_volume then [Intern.VolumeCall.get_cutout res resolution x y z t] else [])) ∧
    Intern.Remote.create_cutout r res resolution x y z data t =
      ((if res.valid_volume then
          .ok (vf (.create_cutout res resolution x y z data t))
        else .error (.runtimeError "Resource incompatible with the volume service.")), r,
       (if res.valid_volume then [Intern.VolumeCall.create_cutout res resolution x y z data t] else [])) := by
  unfold Intern.Remote.get_cutout Intern.Remote.create_cutout
  cases h : res.valid_volume <;> simp [h, hv]

/-- Witness for `remote_cutout_dispatch` at a concrete remote, resource and
cutout request. -/
theorem remote_cutout_dispatch_witness :
    sampleRemote._volume = some sampleVolume ∧
    (Intern.Remote.get_cutout sampleRemote sampleRes 0 [0, 5] [0, 6] [0, 7] none =
      ((if sampleRes.valid_volume then
          .ok (sampleVolume (.get_cutout sampleRes 0 [0, 5] [0, 6] [0, 7] none))
        else .error (.runtimeError "Resource incompatible with the volume service.")), sampleRemote,
       (if sampleRes.valid_volume then [Intern.VolumeCall.get_cutout sampleRes 0 [0, 5] [0, 6] [0, 7] none] else [])) ∧
     Intern.Remote.create_cutout sampleRemote sampleRes 0 [0, 5] [0, 6] [0, 7] "data" none =
      ((if sampleRes.valid_volume then
          .ok (sampleVolume (.create_cutout sampleRes 0 [0, 5] [0, 6] [0, 7] "data" none))
        else .error (.runtimeError "Resource incompatible with the volume service.")), sampleRemote,
       (if sampleRes.valid_volume then [Intern.VolumeCall.create_cutout sampleRes 0 [0, 5] [0, 6] [0, 7] "data" none] else []))) :=
  ⟨rfl, remote_cutout_dispatch sampleRemote sampleVolume sampleRes 0 [0, 5] [0, 6] [0, 7] "data" none rfl⟩

/-- C2: the `ProjectService` constructor selects the `ProjectService_0_7`
instance for version `v0.7`, raises `KeyError` for every other version
string, and every public method of the constructed service delegates to
the selected implementation. -/
theorem projectService_version_dispatch (impl07 : Intern.ImplCall → String)
    (root auth sess opts base v : String) (hv : v ≠ "v0.7") :
    Intern.ProjectService.init impl07 root auth sess opts base "v0.7" =
      .ok ⟨base, impl07, root, auth, sess, opts⟩ ∧
    Intern.ProjectService.init impl07 root auth sess opts base v = .error (.keyError v) ∧
    Intern.delegatesAll ⟨base, impl07, root, auth, sess, opts⟩ := by
  refine ⟨rfl, ?_, ?_⟩
  · have h : (v == "v0.7") = false := beq_eq_false_iff_ne.mpr hv
    simp [Intern.ProjectService.init, Intern.get_api_impl, List.lookup, h]
  · exact ⟨fun _ _ => rfl, fun _ => rfl, fun _ _ => rfl, fun _ _ => rfl, fun _ _ => rfl,
      fun _ _ _ => rfl, fun _ _ _ => rfl, fun _ _ => rfl, fun _ _ => rfl, fun _ => rfl,
      fun _ _ _ _ _ => rfl, fun _ => rfl, fun _ => rfl, fun _ => rfl, fun _ => rfl,
      fun _ => rfl, fun _ => rfl, fun _ _ => rfl, fun _ => rfl⟩

/-- Witness for `projectService_version_dispatch`: `v0.7` selects the
implementation, `v0.8` raises `KeyError`. -/
theorem projectService_version_dispatch_witness :
    ("v0.8" : String) ≠ "v0.7" ∧
    (Intern.ProjectService.init sampleImpl "pre" "au" "se" "op" "api.boss.io" "v0.7" =
      .ok ⟨"api.boss.io", sampleImpl, "pre", "au", "se", "op"⟩ ∧
     Intern.ProjectService.init sampleImpl "pre" "au" "se" "op" "api.boss.io" "v0.8" =
      .error (.keyError "v0.8") ∧
     Intern.delegatesAll ⟨"api.boss.io", sampleImpl, "pre", "au", "se", "op"⟩) :=
  ⟨by decide, projectService_version_dispatch sampleImpl "pre" "au" "se" "op" "api.boss.io" "v0.8" (by decide)⟩

/-- C8: `Remote.list_project(**kwargs)` returns exactly the project
service's `list` on the same keyword arguments, which in turn routes the
bound `resource` (with the plumbing attributes) to the selected version
implementation. -/
theorem list_project_delegates (r : Intern.RemoteState) (ps : Intern.ProjectService)
    (kw : Intern.Kwargs) (hp : r._project = some ps) :
    Intern.Remote.list_project r kw = .ok (ps.list kw) ∧
    ps.list kw =
      (some (ps.service (.list kw.resource ps.url_root ps.auth ps.session ps.session_send_opts)),
       [.list kw.resource ps.url_root ps.auth ps.session ps.session_send_opts]) := by
  constructor
  · unfold Intern.Remote.list_project
    rw [hp]
  · rfl

/-- Witness for `list_project_delegates` at the sample remote. -/
theorem list_project_delegates_witness :
    sampleRemote._project = some sampleProject ∧
    (Intern.Remote.list_project sampleRemote ⟨some ⟨"res"⟩, [("group_name", "g")]⟩ =
      .ok (sampleProject.list ⟨some ⟨"res"⟩, [("group_name", "g")]⟩) ∧
     sampleProject.list ⟨some ⟨"res"⟩, [("group_name", "g")]⟩ =
      (some (sampleProject.service (.list (some ⟨"res"⟩) sampleProject.url_root
          sampleProject.auth sampleProject.session sampleProject.session_send_opts)),
       [.list (some ⟨"res"⟩) sampleProject.url_root sampleProject.auth
          sampleProject.session sampleProject.session_send_opts])) :=
  ⟨rfl, list_project_delegates sampleRemote sampleProject ⟨some ⟨"res"⟩, [("group_name", "g")]⟩ rfl⟩

/-- C7: every call to `compute_invariants` raises
`NameError: GraphFormats` on its first validation test (the module defines
`InputFormats`, not `GraphFormats`) and attempts no upload;
the documented `ValueError`s are unreachable. -/
theorem compute_invariants_always_nameError (x : Ndio.m2g) (env : Ndio.Env)
    (a : Ndio.ComputeInvArgs) :
    Ndio.m2g.compute_invariants x env a =
      ⟨.raises (.nameError "GraphFormats"), [], []⟩ := rfl

/-- C10: every call to `convert_graph` raises `NameError: GraphFormats` at
its first validation test, so it never returns a converted graph and never
attempts an HTTP request; neither the validation `ValueError`s nor the
final unconditional `NotImplementedError` is reachable. -/
theorem convert_graph_always_nameError (x : Ndio.m2g) (env : Ndio.Env)
    (a : Ndio.ConvertArgs) :
    Ndio.m2g.convert_graph x env a =
      ⟨.raises (.nameError "GraphFormats"), [], []⟩ := rfl

/-- C6: even in a fully cooperative environment, valid `build_graph`
arguments with `use_threads=True` return `None` with the background thread
attempting no upload and never invoking the callback, and with
`use_threads=False` the call raises `ValueError` instead of returning the
HTTP response body — `_run_build_graph` zips the unbound name `file_file`,
so its bare `except:` always fires. -/
theorem build_graph_upload_behavior :
    Ndio.m2g.build_graph x0 env1 aThreads = ⟨.returns none, [], []⟩ ∧
    Ndio.m2g.build_graph x0 env1 aFore =
      ⟨.raises (.valueError "Invalid atlas or fiber file. I dont have any more information than that, sorry!"),
       [], []⟩ := by
  exact ⟨rfl, rfl⟩

/-- C4 counterexample: a call whose arguments satisfy none of the four
validation conditions (invariants are a subset of `Invariants.ALL`, the
size is `m2g.BIG`, no callback is supplied, the URL has no space) still
raises `ValueError` when run in the foreground, refuting the claimed
"if and only if". -/
theorem build_graph_valueError_counterexample :
    Ndio.m2g.build_graph x0 env1 aFore =
      ⟨.raises (.valueError "Invalid atlas or fiber file. I dont have any more information than that, sorry!"),
       [], []⟩ ∧
    Ndio.subsetInv aFore.invariants = true ∧
    aFore.size = Ndio.m2g.BIG ∧
    aFore.callback = none ∧
    (Ndio.m2g.buildGraphUrl aFore).data.contains ' ' = false ∧
    aFore.use_threads = false := by
  exact ⟨rfl, rfl, rfl, rfl, rfl, rfl⟩

/-- The callback validation raises something exactly when threads are on
and a bad callback is supplied, and what it raises is always a
`ValueError`. -/
theorem callbackErr_spec (u : Bool) (c : Option Ndio.Callback) :
    (Ndio.callbackErr u c ≠ none ↔
      u = true ∧ ∃ cb, c = some cb ∧ (cb.has_call = false ∨ cb.args ≠ 1)) ∧
    ∀ e, Ndio.callbackErr u c = some e → ∃ msg, e = PyErr.valueError msg := by
  cases u with
  | false => simp [Ndio.callbackErr]
  | true =>
    cases c with
    | none => simp [Ndio.callbackErr]
    | some cb =>
      cases hh : cb.has_call with
      | false => simp [Ndio.callbackErr, hh]
      | true =>
        by_cases ha : cb.args = 1
        · simp [Ndio.callbackErr, hh, ha]
        · simp [Ndio.callbackErr, hh, ha]

/-- C4 (amended): `build_graph` raises `ValueError` exactly when the
invariants are not a subset of `Invariants.ALL`, or (threads with a
callback) the callback is not a one-argument function, or the size is
neither `m2g.BIG` nor `m2g.SMALL`, or the assembled URL contains a space,
or — because `_run_build_graph` zips the unbound name `file_file` and its
bare `except:` re-raises `ValueError` — whenever validation passes with
`use_threads=False`; and in every case no upload is attempted. -/
theorem build_graph_valueError_iff (x : Ndio.m2g) (env : Ndio.Env) (a : Ndio.BuildGraphArgs) :
    ((∃ msg, (Ndio.m2g.build_graph x env a).main = .raises (.valueError msg)) ↔
      (Ndio.subsetInv a.invariants = false ∨
       (a.use_threads = true ∧ ∃ cb, a.callback = some cb ∧ (cb.has_call = false ∨ cb.args ≠ 1)) ∨
       ¬ (a.size = Ndio.m2g.BIG ∨ a.size = Ndio.m2g.SMALL) ∨
       (Ndio.m2g.buildGraphUrl a).data.contains ' ' = true ∨
       a.use_threads = false)) ∧
    (Ndio.m2g.build_graph x env a).uploads = [] := by
  obtain ⟨hiff, hval⟩ := callbackErr_spec a.use_threads a.callback
  cases h1 : Ndio.subsetInv a.invariants with
  | false =>
    constructor
    · simp [Ndio.m2g.build_graph, h1]
    · simp [Ndio.m2g.build_graph, h1]
  | true =>
    cases hc : Ndio.callbackErr a.use_threads a.callback with
    | some e =>
      obtain ⟨msg, rfl⟩ := hval e hc
      have hcb : a.use_threads = true ∧ ∃ cb, a.callback = some cb ∧ (cb.has_call = false ∨ cb.args ≠ 1) :=
        hiff.mp (by simp [hc])
      constructor
      · simp [Ndio.m2g.build_graph, h1, hc]
        exact Or.inl hcb
      · simp [Ndio.m2g.build_graph, h1, hc]
    | none =>
      have hnc : ¬ (a.use_threads = true ∧ ∃ cb, a.callback = some cb ∧ (cb.has_call = false ∨ cb.args ≠ 1)) :=
        fun h => (hiff.mpr h) hc
      by_cases h2 : a.size = Ndio.m2g.BIG ∨ a.size = Ndio.m2g.SMALL
      · cases h3 : (Ndio.m2g.buildGraphUrl a).data.contains ' ' with
        | true =>
          simp at h3
          constructor
          · simp [Ndio.m2g.build_graph, h1, hc, h2, h3]
          · simp [Ndio.m2g.build_graph, h1, hc, h2, h3]
        | false =>
          simp at h3
          cases h4 : a.use_threads with
          | true =>
            simp only [h4] at hc hnc
            simp only [true_and] at hnc
            constructor
            · simp [Ndio.m2g.build_graph, h1, hc, h2, h3, h4, hnc,
                Ndio.m2g._run_build_graph, Ndio.file_file]
            · simp [Ndio.m2g.build_graph, h1, hc, h2, h3, h4,
                Ndio.m2g._run_build_graph, Ndio.file_file]
          | false =>
            constructor
            · simp [Ndio.m2g.build_graph, Ndio.callbackErr, h1, h2, h3, h4,
                Ndio.m2g._run_build_graph, Ndio.file_file]
            · simp [Ndio.m2g.build_graph, Ndio.callbackErr, h1, h2, h3, h4,
                Ndio.m2g._run_build_graph, Ndio.file_file]
      · constructor
        · simp [Ndio.m2g.build_graph, h1, hc, h2]
        · simp [Ndio.m2g.build_graph, h1, hc, h2]

/-- C5: for arguments passing `build_graph`'s validation, the assembled
request URL is the literal segment `buildgraph` followed by project, site,
subject, session, scan, size, email and the `/`-joined invariants, each
separated by `/` and ending with `/`, and `m2g.url` prefixes it with
`/graph-services/` on the remote's base address; the foreground call passes
exactly this URL to `_run_build_graph`. -/
theorem build_graph_url_shape (x : Ndio.m2g) (env : Ndio.Env) (a : Ndio.BuildGraphArgs)
    (h : Ndio.passesValidation a) :
    Ndio.m2g.url x (Ndio.m2g.buildGraphUrl a) =
      x.protocol ++ "://" ++ x.hostname ++ "/graph-services/" ++
        (String.intercalate "/"
          ["buildgraph", a.project, a.site, a.subject, a.session, a.scan, a.size, a.email,
           String.intercalate "/" a.invariants] ++ "/") ∧
    (a.use_threads = false →
      Ndio.m2g.build_graph x env a =
        Ndio.m2g._run_build_graph x env (Ndio.m2g.buildGraphUrl a) a.fiber_file a.atlas_file none) := by
  obtain ⟨h1, h2, h3, h4⟩ := h
  constructor
  · unfold Ndio.m2g.url Ndio.Remote_url Ndio.m2g.buildGraphUrl
    apply String.ext
    simp [String.intercalate, String.intercalate.go, String.data_append]
  · intro h5
    have h4m : ' ' ∉ (Ndio.m2g.buildGraphUrl a).data := by simpa using h4
    simp [Ndio.m2g.build_graph, Ndio.callbackErr, h1, h2, h3, h4m, h5]

/-- Witness for `build_graph_url_shape` at the concrete foreground
arguments. -/
theorem build_graph_url_shape_witness :
    Ndio.passesValidation aFore ∧
    (Ndio.m2g.url x0 (Ndio.m2g.buildGraphUrl aFore) =
      x0.protocol ++ "://" ++ x0.hostname ++ "/graph-services/" ++
        (String.intercalate "/"
          ["buildgraph", aFore.project, aFore.site, aFore.subject, aFore.session, aFore.scan,
           aFore.size, aFore.email, String.intercalate "/" aFore.invariants] ++ "/") ∧
     (aFore.use_threads = false →
      Ndio.m2g.build_graph x0 env1 aFore =
        Ndio.m2g._run_build_graph x0 env1 (Ndio.m2g.buildGraphUrl aFore) aFore.fiber_file
          aFore.atlas_file none)) :=
  ⟨⟨by decide, by decide, by decide, by decide⟩,
   build_graph_url_shape x0 env1 aFore ⟨by decide, by decide, by decide, by decide⟩⟩

/-- Parsing a single-quoted literal body free of quotes, backslashes and
line breaks returns exactly the characters before the closing quote. -/
theorem parseSQLit_clean (s rest : List Char)
    (h : ∀ c ∈ s, ¬ (c = Ndio.sq ∨ c = '\\' ∨ c = '\n' ∨ c = '\r')) :
    Ndio.parseSQLit (s ++ Ndio.sq :: rest) = some (s, rest) := by
  induction s with
  | nil =>
    unfold Ndio.parseSQLit
    simp
  | cons c cs ih =>
    have hc := h c (List.mem_cons_self c cs)
    push_neg at hc
    unfold Ndio.parseSQLit
    simp [hc.1, hc.2.1, hc.2.2.1, hc.2.2.2,
      ih fun d hd => h d (List.mem_cons_of_mem c hd)]

/-- Consuming an expected prefix succeeds and leaves the rest. -/
theorem expects_append (p r : List Char) : Ndio.expects p (p ++ r) = some r := by
  induction p with
  | nil => rfl
  | cons c ps ih => simp [Ndio.expects, ih]

/-- C9 (amended): for every `m2g` instance whose hostname, protocol and
email contain no single-quote, backslash, newline or carriage-return
characters, evaluating the constructor call produced by `__repr__` yields
an instance with the same hostname, protocol and email. -/
theorem m2g_repr_eval_roundtrip (x : Ndio.m2g)
    (h1 : Ndio.pyLitSafe x.hostname) (h2 : Ndio.pyLitSafe x.protocol)
    (h3 : Ndio.pyLitSafe x.email) :
    Ndio.evalM2gRepr (Ndio.m2g.repr x) = some x := by
  obtain ⟨⟨hd⟩, ⟨pd⟩, ⟨ed⟩⟩ := x
  have H1 : ∀ c ∈ hd, ¬ (c = Ndio.sq ∨ c = '\\' ∨ c = '\n' ∨ c = '\r') := h1
  have H2 : ∀ c ∈ pd, ¬ (c = Ndio.sq ∨ c = '\\' ∨ c = '\n' ∨ c = '\r') := h2
  have H3 : ∀ c ∈ ed, ¬ (c = Ndio.sq ∨ c = '\\' ∨ c = '\n' ∨ c = '\r') := h3
  have P1 : ∀ rest, Ndio.parseSQLit (hd ++ Ndio.sq :: rest) = some (hd, rest) :=
    fun rest => parseSQLit_clean hd rest H1
  have P2 : ∀ rest, Ndio.parseSQLit (pd ++ Ndio.sq :: rest) = some (pd, rest) :=
    fun rest => parseSQLit_clean pd rest H2
  have P3 : ∀ rest, Ndio.parseSQLit (ed ++ Ndio.sq :: rest) = some (ed, rest) :=
    fun rest => parseSQLit_clean ed rest H3
  have hdata : (Ndio.m2g.repr ⟨⟨hd⟩, ⟨pd⟩, ⟨ed⟩⟩).data =
      "ndio.remote.m2g(".data ++
        (Ndio.sq :: (hd ++ (Ndio.sq :: ',' :: ' ' :: (Ndio.sq :: (pd ++
          (Ndio.sq :: ',' :: ' ' :: (Ndio.sq :: (ed ++ [Ndio.sq, ')'])))))))) := by
    simp [Ndio.m2g.repr, Ndio.sqs, String.data_append]
  unfold Ndio.evalM2gRepr
  rw [hdata, expects_append]
  simp [Ndio.parseArg, Ndio.expects, P1, P2, P3, Ndio.m2g.init]

/-- Witness for `m2g_repr_eval_roundtrip` at the default-style instance. -/
theorem m2g_repr_eval_roundtrip_witness :
    Ndio.pyLitSafe (Ndio.m2g.mk "openconnecto.me" "http" "user@jhu.edu").hostname ∧
    Ndio.pyLitSafe (Ndio.m2g.mk "openconnecto.me" "http" "user@jhu.edu").protocol ∧
    Ndio.pyLitSafe (Ndio.m2g.mk "openconnecto.me" "http" "user@jhu.edu").email ∧
    Ndio.evalM2gRepr (Ndio.m2g.repr ⟨"openconnecto.me", "http", "user@jhu.edu"⟩) =
      some ⟨"openconnecto.me", "http", "user@jhu.edu"⟩ :=
  ⟨by unfold Ndio.pyLitSafe; decide, by unfold Ndio.pyLitSafe; decide,
   by unfold Ndio.pyLitSafe; decide,
   m2g_repr_eval_roundtrip ⟨"openconnecto.me", "http", "user@jhu.edu"⟩
     (by unfold Ndio.pyLitSafe; decide) (by unfold Ndio.pyLitSafe; decide)
     (by unfold Ndio.pyLitSafe; decide)⟩

/-- C9 counterexample: an instance whose email contains a single quote
(`it's`) produces a `repr` whose text is not a well-formed constructor
call — Python's `eval` raises `SyntaxError` — so the round trip fails. -/
theorem m2g_repr_eval_counterexample :
    Ndio.evalM2gRepr (Ndio.m2g.repr ⟨"openconnecto.me", "http", "it" ++ Ndio.sqs ++ "s"⟩) =
      none := by
  decide

/-- Dropping leading whitespace does nothing on an all-non-whitespace
list. -/
theorem stripL_of_nonspace (l : List Char) (h : ∀ c ∈ l, PyCfg.isSpaceChar c = false) :
    PyCfg.stripL l = l := by
  cases l with
  | nil => rfl
  | cons c cs =>
    unfold PyCfg.stripL
    simp [h c (List.mem_cons_self c cs)]

/-- Right-stripping the generated `key ` chunk recovers the key. -/
theorem stripR_key (k : List Char) (h : ∀ c ∈ k, PyCfg.isSpaceChar c = false) :
    PyCfg.stripR (k ++ [' ']) = k := by
  unfold PyCfg.stripR PyCfg.stripL
  have : (k ++ [' ']).reverse = ' ' :: k.reverse := by simp
  rw [this]
  simp only [PyCfg.isSpaceChar, if_pos]
  have h2 : PyCfg.stripL k.reverse = k.reverse :=
    stripL_of_nonspace _ (fun c hc => h c (List.mem_reverse.mp hc))
  simp [PyCfg.stripL] at h2 ⊢
  rw [h2, List.reverse_reverse]

/-- A non-whitespace member survives `strip`. -/
theorem mem_strip (l : List Char) (c : Char) (hc : c ∈ l)
    (hns : PyCfg.isSpaceChar c = false) : c ∈ PyCfg.strip l := by
  have memL : ∀ (m : List Char), c ∈ m → c ∈ PyCfg.stripL m := by
    intro m hm
    induction m with
    | nil => cases hm
    | cons d ds ih =>
      unfold PyCfg.stripL
      by_cases hd : PyCfg.isSpaceChar d
      · rcases List.mem_cons.mp hm with h1 | h1
        · rw [h1] at hns; rw [hns] at hd; cases hd
        · simp [hd, ih h1]
      · simp [hd, hm]
  unfold PyCfg.strip PyCfg.stripR
  have h1 : c ∈ PyCfg.stripL l := memL l hc
  have h2 : c ∈ (PyCfg.stripL l).reverse := List.mem_reverse.mpr h1
  have h3 : c ∈ PyCfg.stripL (PyCfg.stripL l).reverse := memL _ h2
  exact List.mem_reverse.mpr h3

/-- `findDelim` finds the written `=` when nothing before it is a
delimiter. -/
theorem findDelim_append (l : List Char) (h : ∀ c ∈ l, ¬ (c = ':' ∨ c = '=')) (rest : List Char) :
    PyCfg.findDelim (l ++ '=' :: rest) = some (l, rest) := by
  induction l with
  | nil =>
    unfold PyCfg.findDelim
    simp
  | cons c cs ih =>
    have hc := h c (List.mem_cons_self c cs)
    push_neg at hc
    unfold PyCfg.findDelim
    simp only [List.cons_append]
    rw [if_neg (by simp [hc.1, hc.2]), ih (fun d hd => h d (List.mem_cons_of_mem c hd))]

/-- `takeWhile` of an all-satisfying chunk before a failing element. -/
theorem takeWhile_chunk (p : Char → Bool) (l : List Char) (hl : ∀ c ∈ l, p c = true)
    (c : Char) (hc : p c = false) (rest : List Char) :
    (l ++ c :: rest).takeWhile p = l := by
  induction l with
  | nil => simp [List.takeWhile, hc]
  | cons d ds ih =>
    simp [List.takeWhile, hl d (List.mem_cons_self d ds),
      ih (fun e he => hl e (List.mem_cons_of_mem d he))]

/-- Processing one generated `key = value` line writes the lowercased key
with the unchanged value into the current section. -/
theorem procLine_optionLine (st : PyCfg.CfgState) (n : List Char) (k v : List Char)
    (hcur : st.cursect = .named n)
    (hk : PyCfg.iniSafeKey k = true) (hv : PyCfg.iniSafeVal v = true) :
    PyCfg.procLine st (k ++ ' ' :: '=' :: ' ' :: v) =
      .ok (PyCfg.writeOpt st (PyCfg.lowerL k) v) := by
  obtain ⟨k0, ks, rfl⟩ : ∃ c cs, k = c :: cs := by
    cases k with
    | nil => simp [PyCfg.iniSafeKey] at hk
    | cons a b => exact ⟨a, b, rfl⟩
  rw [PyCfg.iniSafeKey] at hk
  simp only [Bool.and_eq_true, List.all_eq_true, Bool.not_eq_true', Bool.or_eq_false_iff,
    beq_eq_false_iff_ne, ne_eq, List.isEmpty_cons, Bool.not_false] at hk
  obtain ⟨⟨⟨-, hA⟩, hB⟩, hC⟩ := hk
  rw [PyCfg.iniSafeVal] at hv
  simp only [Bool.and_eq_true, List.all_eq_true, Bool.not_eq_true', Bool.or_eq_false_iff,
    beq_eq_false_iff_ne, ne_eq, beq_iff_eq] at hv
  obtain ⟨⟨⟨⟨hD, hE⟩, hF⟩, hG⟩, hH⟩ := hv
  have hA0 := hA k0 (List.mem_cons_self k0 ks)
  have hkns : ∀ c ∈ k0 :: ks, PyCfg.isSpaceChar c = false := fun c hc => (hA c hc).2
  have hknd : ∀ c ∈ k0 :: ks, ¬ (c = ':' ∨ c = '=') := by
    intro c hc h
    rcases h with h | h
    · exact (hA c hc).1.1 h
    · exact (hA c hc).1.2 h
  -- the line is non-blank: it contains the non-whitespace '='
  have hmem : ('=' : Char) ∈ (k0 :: ks) ++ ' ' :: '=' :: ' ' :: v := by simp
  have hblank : PyCfg.strip ((k0 :: ks) ++ ' ' :: '=' :: ' ' :: v) ≠ [] :=
    List.ne_nil_of_mem (mem_strip _ '=' hmem (by decide))
  -- head of the line
  have hhead : ((k0 :: ks) ++ ' ' :: '=' :: ' ' :: v).head? = some k0 := by simp
  -- not a rem line
  have hsl : PyCfg.stripL ((k0 :: ks) ++ ' ' :: '=' :: ' ' :: v) =
      (k0 :: ks) ++ ' ' :: '=' :: ' ' :: v := by
    unfold PyCfg.stripL
    simp [hkns k0 (List.mem_cons_self k0 ks)]
  have htw : ((k0 :: ks) ++ ' ' :: '=' :: ' ' :: v).takeWhile (fun c => ! PyCfg.isSpaceChar c) =
      k0 :: ks := by
    exact takeWhile_chunk _ _ (fun c hc => by simp [hkns c hc]) ' ' (by decide) _
  have hrem : PyCfg.isRemLine ((k0 :: ks) ++ ' ' :: '=' :: ' ' :: v) = false := by
    unfold PyCfg.isRemLine
    rw [hsl, htw]
    simp [hC]
  -- delimiter search
  have hfd : PyCfg.findDelim ((k0 :: ks) ++ ' ' :: '=' :: ' ' :: v) =
      some ((k0 :: ks) ++ [' '], ' ' :: v) := by
    have : (k0 :: ks) ++ ' ' :: '=' :: ' ' :: v = ((k0 :: ks) ++ [' ']) ++ '=' :: ' ' :: v := by
      simp
    rw [this]
    apply findDelim_append
    intro c hc
    rcases List.mem_append.mp hc with h | h
    · exact hknd c h
    · intro hx
      rcases List.mem_singleton.mp h with rfl
      rcases hx with hx | hx <;> cases hx
  -- the value normalisation is the identity
  have hval : PyCfg.strip (PyCfg.commentStrip (PyCfg.stripL (' ' :: v))) = v := by
    have h1 : PyCfg.stripL (' ' :: v) = v := by
      unfold PyCfg.stripL
      simp [PyCfg.isSpaceChar, hE]
    rw [h1, hG]
    unfold PyCfg.strip
    rw [hE, hF]
  have hpo : PyCfg.parseOption ((k0 :: ks) ++ ' ' :: '=' :: ' ' :: v) =
      some (PyCfg.lowerL (k0 :: ks), v) := by
    unfold PyCfg.parseOption
    rw [hfd]
    simp only [List.cons_append]
    have hsr : PyCfg.stripR (k0 :: (ks ++ [' '])) = k0 :: ks := by
      rw [← List.cons_append]
      exact stripR_key _ hkns
    rw [if_neg (by simp [hA0.2]), hsr, hval]
    simp [hH]
  -- not a section header
  have hsec : PyCfg.parseSection ((k0 :: ks) ++ ' ' :: '=' :: ' ' :: v) = none := by
    unfold PyCfg.parseSection
    simp [hB.2]
  -- assemble
  simp only [List.cons_append] at hblank hhead hsl htw hrem hfd hpo hsec ⊢
  unfold PyCfg.procLine
  rw [if_neg hblank]
  rw [if_neg (by simp [hhead, hB.1.1, hB.1.2])]
  rw [if_neg (by simp [hrem])]
  rw [if_neg (by
    intro hcont
    have := hcont.1
    simp only [List.headD_eq_head?_getD, hhead, Option.getD_some] at this
    rw [hkns k0 (List.mem_cons_self k0 ks)] at this
    cases this)]
  rw [hsec, hcur, hpo]

/-- Folding the generated option lines over a parser state inside section
`Default` applies the dict to that section's option block; the final empty
line (from the trailing newline) is skipped as blank. -/
theorem procLines_dict (d : List (String × PyCfg.PyVal)) (opts : List (List Char × List Char))
    (on0 : Option (List Char))
    (hsafe : ∀ kv ∈ d, PyCfg.iniSafeKey kv.1.data = true ∧ PyCfg.iniSafeVal (PyCfg.pyStr kv.2).data = true) :
    ∃ on1, PyCfg.procLines ⟨[], [("Default".data, opts)], .named "Default".data, on0, false⟩
        (d.map PyCfg.lineOf ++ [[]]) =
      .ok ⟨[], [("Default".data, PyCfg.applyDict opts d)], .named "Default".data, on1, false⟩ := by
  induction d generalizing opts on0 with
  | nil =>
    refine ⟨on0, ?_⟩
    simp [PyCfg.procLines, PyCfg.procLine, PyCfg.strip, PyCfg.stripL, PyCfg.stripR,
      PyCfg.applyDict]
  | cons kv rest ih =>
    have hk := (hsafe kv (List.mem_cons_self kv rest)).1
    have hv := (hsafe kv (List.mem_cons_self kv rest)).2
    have hline := procLine_optionLine
      ⟨[], [("Default".data, opts)], .named "Default".data, on0, false⟩
      "Default".data kv.1.data (PyCfg.pyStr kv.2).data rfl hk hv
    have hwrite : PyCfg.writeOpt
        ⟨[], [("Default".data, opts)], .named "Default".data, on0, false⟩
        (PyCfg.lowerL kv.1.data) (PyCfg.pyStr kv.2).data =
        ⟨[], [("Default".data, PyCfg.updAssoc (PyCfg.lowerL kv.1.data) (PyCfg.pyStr kv.2).data opts)],
         .named "Default".data, some (PyCfg.lowerL kv.1.data), false⟩ := by
      simp [PyCfg.writeOpt, PyCfg.lookupA, PyCfg.updAssoc]
    obtain ⟨on1, hrest⟩ := ih (PyCfg.updAssoc (PyCfg.lowerL kv.1.data) (PyCfg.pyStr kv.2).data opts)
      (some (PyCfg.lowerL kv.1.data))
      (fun kw hkw => hsafe kw (List.mem_cons_of_mem kv hkw))
    refine ⟨on1, ?_⟩
    rw [List.map_cons, List.cons_append]
    unfold PyCfg.procLines
    simp only [PyCfg.lineOf]
    simp only [hline, hwrite]
    exact hrest

/-- Splitting after a newline-free line. -/
theorem splitLines_append (l rest : List Char) (hl : '\n' ∉ l) :
    PyCfg.splitLines (l ++ '\n' :: rest) = l :: PyCfg.splitLines rest := by
  induction l with
  | nil =>
    conv_lhs => unfold PyCfg.splitLines
    simp
  | cons c cs ih =>
    have hc : ¬ c = '\n' := fun h => hl (by rw [h]; exact List.mem_cons_self _ _)
    have ih2 := ih (fun h => hl (List.mem_cons_of_mem c h))
    conv_lhs => unfold PyCfg.splitLines
    simp only [List.cons_append]
    rw [if_neg hc, ih2]

/-- Splitting joined newline-free lines recovers the lines plus the final
empty line. -/
theorem splitLines_joinLines (ls : List (List Char)) (h : ∀ l ∈ ls, '\n' ∉ l) :
    PyCfg.splitLines (PyCfg.joinLines ls) = ls ++ [[]] := by
  induction ls with
  | nil => rfl
  | cons l rest ih =>
    unfold PyCfg.joinLines
    rw [splitLines_append l _ (h l (List.mem_cons_self l rest)),
      ih (fun m hm => h m (List.mem_cons_of_mem l hm))]
    rfl

/-- Unfolding equation of `joinLines`. -/
theorem joinLines_cons (l : List Char) (ls : List (List Char)) :
    PyCfg.joinLines (l :: ls) = l ++ '\n' :: PyCfg.joinLines ls := rfl

/-- The characters of the generated INI text. -/
theorem cfgStrOfDict_data (d : List (String × PyCfg.PyVal)) :
    (Intern.cfgStrOfDict d).data =
      "[Default]".data ++ '\n' :: PyCfg.joinLines (d.map PyCfg.lineOf) := by
  have gen : ∀ (l : List (String × PyCfg.PyVal)) (acc : String),
      (l.foldl (fun acc kv => acc ++ kv.1 ++ " = " ++ PyCfg.pyStr kv.2 ++ "\n") acc).data =
        acc.data ++ PyCfg.joinLines (l.map PyCfg.lineOf) := by
    intro l
    induction l with
    | nil => intro acc; simp [PyCfg.joinLines]
    | cons kv rest ih =>
      intro acc
      rw [List.foldl_cons, ih, List.map_cons, joinLines_cons]
      simp [String.data_append, PyCfg.lineOf]
  rw [Intern.cfgStrOfDict, gen]
  rfl

/-- Looking up the key just written finds the new value. -/
theorem lookupA_updAssoc_self {α : Type} (k : List Char) (v : α) (o : List (List Char × α)) :
    PyCfg.lookupA k (PyCfg.updAssoc k v o) = some v := by
  induction o with
  | nil => simp [PyCfg.updAssoc, PyCfg.lookupA]
  | cons p rest ih =>
    obtain ⟨pk, pv⟩ := p
    by_cases h : pk = k
    · simp [PyCfg.updAssoc, PyCfg.lookupA, h]
    · simp [PyCfg.updAssoc, PyCfg.lookupA, h, ih]

/-- Writing one key does not disturb lookups of another. -/
theorem lookupA_updAssoc_ne {α : Type} (k k' : List Char) (v : α) (o : List (List Char × α))
    (h : k' ≠ k) : PyCfg.lookupA k (PyCfg.updAssoc k' v o) = PyCfg.lookupA k o := by
  induction o with
  | nil => simp [PyCfg.updAssoc, PyCfg.lookupA, h]
  | cons p rest ih =>
    obtain ⟨pk, pv⟩ := p
    by_cases h2 : pk = k'
    · simp [PyCfg.updAssoc, PyCfg.lookupA, h2, h]
    · by_cases h3 : pk = k
      · simp [PyCfg.updAssoc, PyCfg.lookupA, h2, h3, Ne.symm h]
      · simp [PyCfg.updAssoc, PyCfg.lookupA, h2, h3, ih]

/-- Applying a dict none of whose lowercased keys is `k` does not disturb
lookups of `k`. -/
theorem lookupA_applyDict_ne (d : List (String × PyCfg.PyVal)) (o : List (List Char × List Char))
    (k : List Char) (h : ∀ kv ∈ d, PyCfg.lowerL kv.1.data ≠ k) :
    PyCfg.lookupA k (PyCfg.applyDict o d) = PyCfg.lookupA k o := by
  induction d generalizing o with
  | nil => rfl
  | cons kv rest ih =>
    have step : PyCfg.applyDict o (kv :: rest) =
        PyCfg.applyDict (PyCfg.updAssoc (PyCfg.lowerL kv.1.data) (PyCfg.pyStr kv.2).data o) rest := rfl
    rw [step, ih _ (fun kw hw => h kw (List.mem_cons_of_mem kv hw)),
      lookupA_updAssoc_ne _ _ _ _ (h kv (List.mem_cons_self kv rest))]

/-- With pairwise-distinct lowercased keys, applying the dict maps each
key's lowercase form to its stringified value. -/
theorem lookupA_applyDict_mem (d : List (String × PyCfg.PyVal)) (o : List (List Char × List Char))
    (k : String) (v : PyCfg.PyVal) (hmem : (k, v) ∈ d)
    (hnd : (d.map (fun kv => PyCfg.lowerL kv.1.data)).Nodup) :
    PyCfg.lookupA (PyCfg.lowerL k.data) (PyCfg.applyDict o d) = some (PyCfg.pyStr v).data := by
  induction d generalizing o with
  | nil => cases hmem
  | cons kv rest ih =>
    rw [List.map_cons] at hnd
    obtain ⟨hhead, htail⟩ := List.nodup_cons.mp hnd
    rcases List.mem_cons.mp hmem with h | h
    · have hk : kv = (k, v) := h.symm
      subst hk
      have step : PyCfg.applyDict o ((k, v) :: rest) =
          PyCfg.applyDict (PyCfg.updAssoc (PyCfg.lowerL k.data) (PyCfg.pyStr v).data o) rest := rfl
      rw [step, lookupA_applyDict_ne rest _ _ ?nohit, lookupA_updAssoc_self]
      case nohit =>
        intro kw hw hkw
        exact hhead (List.mem_map.mpr ⟨kw, hw, hkw⟩)
    · have step : PyCfg.applyDict o (kv :: rest) =
          PyCfg.applyDict (PyCfg.updAssoc (PyCfg.lowerL kv.1.data) (PyCfg.pyStr kv.2).data o) rest := rfl
      rw [step]
      exact ih _ h htail

/-- `get('Default', key)` on a parse result with the single `Default`
section looks up the lowercased key in that section. -/
theorem ini_get_default (opts : List (List Char × List Char)) (key : String) :
    PyCfg.Ini.get ⟨[], [("Default".data, opts)]⟩ "Default" key =
      (PyCfg.lookupA (PyCfg.lowerL key.data) opts).map String.mk := by
  unfold PyCfg.Ini.get
  rw [if_neg (show ¬ "Default".data = "DEFAULT".data by decide)]
  have hl : PyCfg.lookupA "Default".data [("Default".data, opts)] = some opts := by
    simp [PyCfg.lookupA]
  rw [hl]
  cases hx : PyCfg.lookupA (PyCfg.lowerL key.data) opts with
  | none => simp [hx, PyCfg.lookupA]
  | some v => simp [hx]

/-- Parsing the INI text generated from an INI-safe dict yields exactly the
`Default` section holding the dict's (lowercased-key) bindings. -/
theorem readfp_dict (d : List (String × PyCfg.PyVal))
    (hsafe : ∀ kv ∈ d, PyCfg.iniSafeKey kv.1.data = true ∧ PyCfg.iniSafeVal (PyCfg.pyStr kv.2).data = true) :
    PyCfg.readfp (Intern.cfgStrOfDict d) = .ok ⟨[], [("Default".data, PyCfg.applyDict [] d)]⟩ := by
  have hnl : ∀ l ∈ d.map PyCfg.lineOf, '\n' ∉ l := by
    intro l hl
    obtain ⟨kv, hkv, rfl⟩ := List.mem_map.mp hl
    obtain ⟨hk, hv⟩ := hsafe kv hkv
    rw [PyCfg.iniSafeKey.eq_def] at hk
    simp only [Bool.and_eq_true, List.all_eq_true, Bool.not_eq_true', Bool.or_eq_false_iff,
      beq_eq_false_iff_ne, ne_eq, List.isEmpty_cons, Bool.not_false] at hk
    obtain ⟨⟨⟨-, hA⟩, -⟩, -⟩ := hk
    rw [PyCfg.iniSafeVal] at hv
    simp only [Bool.and_eq_true, List.all_eq_true, Bool.not_eq_true', Bool.or_eq_false_iff,
      beq_eq_false_iff_ne, ne_eq, beq_iff_eq] at hv
    obtain ⟨⟨⟨⟨hD, -⟩, -⟩, -⟩, -⟩ := hv
    intro hmem
    rw [PyCfg.lineOf] at hmem
    rcases List.mem_append.mp hmem with h | h
    · have := (hA '\n' h).2
      simp [PyCfg.isSpaceChar] at this
    · simp only [List.mem_cons] at h
      rcases h with h | h | h | h
      · exact absurd h (by decide)
      · exact absurd h (by decide)
      · exact absurd h (by decide)
      · exact (hD '\n' h).1 rfl
  unfold PyCfg.readfp
  rw [cfgStrOfDict_data, splitLines_append _ _ (by decide), splitLines_joinLines _ hnl]
  have hhdr : PyCfg.procLine ⟨[], [], .nothing, none, false⟩ "[Default]".data =
      .ok ⟨[], [("Default".data, [])], .named "Default".data, none, false⟩ := by rfl
  obtain ⟨on1, hrest⟩ := procLines_dict d [] none hsafe
  unfold PyCfg.procLines
  simp only [hhdr, hrest]
  rfl

/-- C3 (amended): from a dict with pairwise-distinct lowercased,
INI-safe keys and single-line INI-safe stringified values, the constructor
builds a parser whose `Default` section maps every key to the string form
of its value; given a path to an existing file it parses that file's text
as INI; given a path naming no file it raises `IOError` with `_config`
still `None`. -/
theorem remote_init_config (fs : Intern.FS) (d : List (String × PyCfg.PyVal)) (p : String)
    (hnd : (d.map (fun kv => PyCfg.lowerL kv.1.data)).Nodup)
    (hsafe : ∀ kv ∈ d, PyCfg.iniSafeKey kv.1.data = true ∧ PyCfg.iniSafeVal (PyCfg.pyStr kv.2).data = true) :
    (∃ ini, Intern.Remote.init fs (.dict d) =
        (⟨none, none, none, none, some ini, none, none, none, none⟩, none) ∧
      ∀ k v, (k, v) ∈ d → ini.get "Default" k = some (PyCfg.pyStr v)) ∧
    (fs.isfile p = true → ∀ ini, Intern.Remote.load_config_file (fs.read p) = .ok ini →
      Intern.Remote.init fs (.path p) =
        (⟨none, none, none, none, some ini, none, none, none, none⟩, none)) ∧
    (fs.isfile p = false →
      Intern.Remote.init fs (.path p) =
        (⟨none, none, none, none, none, none, none, none, none⟩,
         some (.ioError ("Configuration file not found: " ++ p)))) := by
  refine ⟨⟨⟨[], [("Default".data, PyCfg.applyDict [] d)]⟩, ?_, ?_⟩, ?_, ?_⟩
  · simp only [Intern.Remote.init, Intern.Remote.load_config_file, readfp_dict d hsafe]
  · intro k v hkv
    rw [ini_get_default, lookupA_applyDict_mem d [] k v hkv hnd]
    rw [Option.map_some']
  · intro hfile ini hini
    have hini2 : PyCfg.readfp (fs.read p) = Except.ok ini := hini
    simp only [Intern.Remote.init, Intern.Remote.initPath, Intern.Remote.load_config_file,
      hfile, if_true, hini2]
  · intro hfile
    simp only [Intern.Remote.init, Intern.Remote.initPath, hfile, Bool.false_eq_true,
      if_false]

/-- C3 counterexample: with the dict `{A: one, a: two}` the parser
lowercases option names, so the `Default` section cannot map both keys: the
lookup of `A` yields `two`, not the string form `one` of its value (the
later case-colliding key overwrote it). -/
theorem remote_init_dict_counterexample :
    ((Intern.Remote.init fs0 (.dict [("A", .str "one"), ("a", .str "two")])).1._config.map
      (fun ini => (ini.get "Default" "A", ini.get "Default" "a"))) =
      some (some "two", some "two") ∧ ¬ ((some "two" : Option String) = some "one") := by
  exact ⟨rfl, by decide⟩

/-- Witness for `remote_init_config` on a concrete two-entry dict and a
missing config-file path. -/
theorem remote_init_config_witness :
    (([("host", PyCfg.PyVal.str "api.boss.io"), ("token", PyCfg.PyVal.str "secret")].map
        (fun kv => PyCfg.lowerL kv.1.data)).Nodup) ∧
    (∀ kv ∈ [("host", PyCfg.PyVal.str "api.boss.io"), ("token", PyCfg.PyVal.str "secret")],
      PyCfg.iniSafeKey kv.1.data = true ∧ PyCfg.iniSafeVal (PyCfg.pyStr kv.2).data = true) ∧
    ((∃ ini, Intern.Remote.init fs0
          (.dict [("host", PyCfg.PyVal.str "api.boss.io"), ("token", PyCfg.PyVal.str "secret")]) =
        (⟨none, none, none, none, some ini, none, none, none, none⟩, none) ∧
      ∀ k v, (k, v) ∈ [("host", PyCfg.PyVal.str "api.boss.io"), ("token", PyCfg.PyVal.str "secret")] →
        ini.get "Default" k = some (PyCfg.pyStr v)) ∧
    (fs0.isfile "/etc/intern.cfg" = true → ∀ ini,
      Intern.Remote.load_config_file (fs0.read "/etc/intern.cfg") = .ok ini →
      Intern.Remote.init fs0 (.path "/etc/intern.cfg") =
        (⟨none, none, none, none, some ini, none, none, none, none⟩, none)) ∧
    (fs0.isfile "/etc/intern.cfg" = false →
      Intern.Remote.init fs0 (.path "/etc/intern.cfg") =
        (⟨none, none, none, none, none, none, none, none, none⟩,
         some (.ioError ("Configuration file not found: " ++ "/etc/intern.cfg"))))) :=
  ⟨by decide, by decide,
   remote_init_config fs0 [("host", PyCfg.PyVal.str "api.boss.io"), ("token", PyCfg.PyVal.str "secret")]
     "/etc/intern.cfg" (by decide) (by decide)⟩
